import Mathlib

/-!
Shallow embedding of the EC-Earth4-Tools post-processing utilities
(repository `asozza/EC-Earth4-Tools`) and proofs about them.

The embedding covers:
* `osprey/actions/post_reader.py` — `reader_averaged`, `postreader_averaged`,
  `averaging`, `reader_restart`;
* `osprey/utils/vardict.py` — the NEMO variable catalogue;
* `osprey/means/eof.py` — `project_eofs` and its helpers;
* `martini/roll_back_ece4.py` — the leg-info rewrite of the rollback tool.

External library calls (xarray, numpy, cdo, the unshipped `osprey.means.means`,
`osprey.utils.folders`, `osprey.utils.time`, `osprey.actions.reader` modules)
are modelled as fields of explicit environment structures, and the filesystem
is passed around as an explicit map from path strings to file contents.
Machine-level floating point is modelled over `ℚ`; non-finite samples are
modelled by an explicit finiteness mask.
-/

namespace ECEarth

/-- Python exception kinds that the embedded code can raise. -/
inductive PyErr where
  | fileNotFound
  | keyError
  | nameError
  | unboundLocal
  | valueError
  | indexError
  deriving DecidableEq, Repr

/-- Catalogue record of `osprey/utils/vardict.py`: one entry of the `'nemo'`
dictionary.  Derived quantities additionally carry dependency lists and
inline lambdas in the source; those closures are not needed by any claim and
are recorded here only through the `derived` flag. -/
structure VarInfo where
  dim : String
  grid : List String
  units : String
  longName : String
  derived : Bool := false
  deriving DecidableEq, Repr

/-- Transcription of the `'nemo'` dictionary of `vardict` in
`osprey/utils/vardict.py` (name, dimensionality, grid, units, long name). -/
def vardict_nemo : List (String × VarInfo) :=
  [ ("e3t", ⟨"3D", ["T"], "m", "T-cell thickness", false⟩),
    ("thetao", ⟨"3D", ["T"], "degC", "Temperature", false⟩),
    ("so", ⟨"3D", ["T"], "PSU", "Salinity", false⟩),
    ("tos", ⟨"2D", ["T"], "degC", "Sea-surface temperature", false⟩),
    ("sos", ⟨"2D", ["T"], "PSU", "Sea-surface salinity", false⟩),
    ("zos", ⟨"2D", ["T"], "m", "Sea surface height", false⟩),
    ("sstdcy", ⟨"2D", ["T"], "degC", "Sea-surface temperature diurnal cycle", false⟩),
    ("mldkz5", ⟨"2D", ["T"], "m", "Turbocline depth", false⟩),
    ("mldr10_1", ⟨"2D", ["T"], "m", "Mixed layer depth", false⟩),
    ("mldr10_1dcy", ⟨"2D", ["T"], "m", "Amplitude of mldr10_1 diurnal cycle", false⟩),
    ("sbt", ⟨"2D", ["T"], "degC", "Sea bottom temperature", false⟩),
    ("heatc", ⟨"2D", ["T"], "J/m^2", "Heat content vertically integrated", false⟩),
    ("saltc", ⟨"2D", ["T"], "PSU*kg/m^2", "Salt content vertically integrated", false⟩),
    ("wfo", ⟨"2D", ["T"], "kg/m^2/s", "Net upward water flux", false⟩),
    ("qsr_oce", ⟨"2D", ["T"], "W/m^2", "Solar heat flux at ocean surface", false⟩),
    ("qns_oce", ⟨"2D", ["T"], "W/m^2", "Non-solar heat flux at ocean surface (including E-P)", false⟩),
    ("qt_oce", ⟨"2D", ["T"], "W/m^2", "Total flux at ocean surface", false⟩),
    ("sfx", ⟨"2D", ["T"], "g/m2/s", "Downward salt flux", false⟩),
    ("taum", ⟨"2D", ["T"], "N/m^2", "Surface downward wind stress", false⟩),
    ("windsp", ⟨"2D", ["T"], "m/s", "Wind speed", false⟩),
    ("precip", ⟨"2D", ["T"], "kg/m2/s", "Precipitation flux", false⟩),
    ("snowpre", ⟨"2D", ["T"], "kg/m2/s", "Snowfall flux", false⟩),
    ("e3u", ⟨"3D", ["U"], "m", "U-cell thickness", false⟩),
    ("uo", ⟨"3D", ["U"], "m/s", "Ocean current along i-axis", false⟩),
    ("uos", ⟨"2D", ["U"], "m/s", "Ocean surface current along i-axis", false⟩),
    ("tauuo", ⟨"2D", ["U"], "N/m^2", "Wind stress along i-axis", false⟩),
    ("uocetr_eff", ⟨"3D", ["U"], "m^3/s", "Effective ocean transport along i-axis", false⟩),
    ("vozomatr", ⟨"3D", ["U"], "kg/s", "Ocean mass transport along i-axis", false⟩),
    ("sozohetr", ⟨"2D", ["U"], "W", "Heat transport along i-axis", false⟩),
    ("sozosatr", ⟨"2D", ["U"], "1e-3*kg/s", "Salt transport along i-axis", false⟩),
    ("e3v", ⟨"3D", ["V"], "m", "V-cell thickness", false⟩),
    ("vo", ⟨"3D", ["V"], "m/s", "Ocean current along j-axis", false⟩),
    ("vos", ⟨"2D", ["V"], "m/s", "Ocean surface current along j-axis", false⟩),
    ("tauvo", ⟨"2D", ["V"], "N/m^2", "Wind stress along j-axis", false⟩),
    ("vocetr_eff", ⟨"3D", ["V"], "m^3/s", "Effective ocean transport along j-axis", false⟩),
    ("vomematr", ⟨"3D", ["V"], "kg/s", "Ocean mass transport along j-axis", false⟩),
    ("somehetr", ⟨"2D", ["V"], "W", "Heat transport along j-axis", false⟩),
    ("somesatr", ⟨"2D", ["V"], "1e-3*kg/s", "Salt transport along j-axis", false⟩),
    ("e3w", ⟨"3D", ["W"], "m", "W-cell thickness", false⟩),
    ("wo", ⟨"3D", ["W"], "m/s", "Ocean vertical velocity", false⟩),
    ("difvho", ⟨"3D", ["W"], "m^2/s", "Vertical eddy diffusivity", false⟩),
    ("vovematr", ⟨"3D", ["W"], "kg/s", "Vertical mass transport", false⟩),
    ("av_wave", ⟨"3D", ["W"], "m^2/s", "Internal wave-induced vertical diffusivity", false⟩),
    ("bn2", ⟨"3D", ["W"], "1/s^2", "Squared Brunt-Vaisala frequency", false⟩),
    ("bflx_iwm", ⟨"3D", ["W"], "W/kg", "Internal wave-induced buoyancy flux", false⟩),
    ("pcmap_iwm", ⟨"2D", ["W"], "W/m^2", "Power consumption by wave-driven mixing", false⟩),
    ("emix_iwm", ⟨"3D", ["W"], "W/kg", "Power density available for mixing", false⟩),
    ("av_ratio", ⟨"3D", ["W"], "-", "S over T diffusivity ratio", false⟩),
    ("keos", ⟨"2D", ["U", "V"], "m^2/s^2", "Surface Kinetic Energy", true⟩),
    ("keoh", ⟨"3D", ["U", "V"], "m^2/s^2", "Horizontal Kinetic Energy", true⟩),
    ("keo", ⟨"3D", ["U", "V", "W"], "m^2/s^2", "Total Kinetic Energy", true⟩),
    ("rho", ⟨"3D", ["T", "T"], "kg/m^3", "Potential Density", true⟩),
    ("woto", ⟨"3D", ["T", "W"], "K*m/s", "Buoyancy flux", true⟩) ]

/-- Python dictionary subscription `vardict('nemo')[varname]`: `none` models
the `KeyError` raised for a variable that is not in the catalogue. -/
def lookupVar (varname : String) : Option VarInfo :=
  (vardict_nemo.find? (fun p => p.1 = varname)).map Prod.snd

/-- In `postreader_averaged` and `averaging` the source binds
`ndim = vardict('nemo')[varname]`, i.e. the whole catalogue record (a Python
dict), not its `'dim'` field.  Every subsequent guard compares that dict with
a string (`ndim == '3D'`); in Python, equality between a `dict` and a `str`
is `False`, so this comparison is constantly false. -/
def recEqStr (_info : VarInfo) (_s : String) : Bool := false

/-- Splitting a character list at the first dash: the prefix before it and,
if a dash occurs, the remainder (later dashes preserved). -/
def breakAtDash : List Char → List Char × Option (List Char)
  | [] => ([], none)
  | c :: rest =>
    if c = '-' then ([], some rest)
    else
      let p := breakAtDash rest
      (c :: p.1, p.2)

/-- Splitting of a variable label, as done by
`varname, subregion = varlabel.split('-', 1)` guarded by `'-' in varlabel`:
the variable name is the part before the first dash and the subregion the
remainder (with later dashes preserved); no dash means no subregion. -/
def splitVarlabel (s : String) : String × Option String :=
  let p := breakAtDash s.toList
  (String.mk p.1, p.2.map String.mk)

/-- Joining of directory and file name, `os.path.join(dir, name)`. -/
def pathJoin (dir name : String) : String := dir ++ "/" ++ name

/-- Configuration read from `meanfield.yaml`: the reference experiment name
and its year range (`meanfield[0]['expname']`, `meanfield[1]['startyear']`,
`meanfield[2]['endyear']`). -/
structure MFConfig where
  expname : String
  startyear : Int
  endyear : Int
  deriving DecidableEq, Repr

/-- Environment of the post-reader: the directory resolver
(`osprey.utils.folders`), the NetCDF codec (`xarray`), the raw reader
(`osprey.actions.reader.reader_nemo`), the cost function
(`osprey.means.means.cost`), the parsed `meanfield.yaml`, and the numeric
kernels used by `averaging` (`spacemean`, `timemean`, `get_decimal_year`,
area-weighted means), none of which ship under `src/`.  Datasets in memory
have type `α`; file contents have type `β`. -/
structure PEnv (α β : Type) where
  /-- maps an experiment name to `folders(expname)['perm']`. -/
  perm : String → String
  /-- maps an experiment name to `folders(expname)['osprey']`. -/
  ospreyDir : String → String
  /-- models `xr.open_dataset` on a file's contents. -/
  decode : β → α
  /-- models `ds.to_netcdf` serialization. -/
  encode : α → β
  /-- models `reader_nemo(expname, startyear, endyear)`; an error models the
  exception it raises (e.g. missing raw files). -/
  reader_nemo : String → Int → Int → Except PyErr α
  /-- models `cost(xdata, mdata, metrics)`. -/
  cost : α → α → String → α
  /-- models reading `meanfield.yaml` from the osprey directory: outer `none`
  is a missing file (`FileNotFoundError` on `open`), inner `none` is a file
  without the `'meanfield'` key. -/
  meanfield : Option (Option MFConfig)
  /-- payload of the `timeseries` branch of `averaging` (built from
  `get_decimal_year` and `spacemean(data, varname, ndim, subregion)`). -/
  mkTimeseries : α → String → VarInfo → Option String → α
  /-- payload of the `profile` branch (area-weighted mean over time, y, x). -/
  mkProfile : α → String → α
  /-- payload of the `hovmoller` branch (`spacemean(data, varname, '2D')`). -/
  mkHovmoller : α → String → α
  /-- payload of the `map` branch for a 2D variable (`timemean`). -/
  mkMap2D : α → String → α
  /-- payload of the `map` branch for a 3D variable (`spacemean`). -/
  mkMap3D : α → String → α
  /-- payload of the `field` branch for a 3D variable (`timemean`). -/
  mkField3D : α → String → α
  /-- payload of the `field` branch for a 2D variable (`timemean`). -/
  mkField2D : α → String → α

/-- Filesystem state: a map from path to file contents. -/
def FS (β : Type) : Type := String → Option β

/-- Overwriting a single file. -/
def FS.write {β : Type} (fs : FS β) (path : String) (c : β) : FS β :=
  fun p => if p = path then some c else fs p

/-- Cache file name used by `reader_averaged` and `postreader_averaged`:
`{diagname}_{varlabel}_{metrics}_{startyear}-{endyear}.nc` under the
experiment's permanent directory. -/
def avgFilename {α β : Type} (env : PEnv α β) (expname : String)
    (startyear endyear : Int) (varlabel diagname metrics : String) : String :=
  pathJoin (env.perm expname)
    (diagname ++ "_" ++ varlabel ++ "_" ++ metrics ++ "_" ++
      toString startyear ++ "-" ++ toString endyear ++ ".nc")

/-- Embedding of `reader_averaged`: build the cache file name and open it;
a missing file is a `FileNotFoundError`. -/
def reader_averaged {α β : Type} (env : PEnv α β) (fs : FS β) (expname : String)
    (startyear endyear : Int) (varlabel diagname metrics : String) :
    Except PyErr α :=
  match fs (avgFilename env expname startyear endyear varlabel diagname metrics) with
  | some c => .ok (env.decode c)
  | none => .error .fileNotFound

/-- Embedding of `averaging` in `osprey/actions/post_reader.py`.  The source
is a chain of `if` statements each guarded by `diagname` and (except for
`timeseries`) by `ndim == '3D'` / `ndim == '2D'`, where `ndim` holds the full
catalogue record (see `recEqStr`); when no branch assigns `ds` (and, in the
`map` branch, when `vec` was never assigned) the final `return ds` raises
`UnboundLocalError`, modelled by `.error .unboundLocal`. -/
def averaging {α β : Type} (env : PEnv α β) (_expname : String) (data : α)
    (varlabel diagname : String) : Except PyErr α :=
  let varname := (splitVarlabel varlabel).1
  let subregion := (splitVarlabel varlabel).2
  match lookupVar varname with
  | none => .error .keyError
  | some ndim =>
    if diagname = "timeseries" then
      .ok (env.mkTimeseries data varname ndim subregion)
    else if diagname = "profile" && recEqStr ndim "3D" then
      .ok (env.mkProfile data varname)
    else if diagname = "hovmoller" && recEqStr ndim "3D" then
      .ok (env.mkHovmoller data varname)
    else if diagname = "map" then
      (if recEqStr ndim "2D" then .ok (env.mkMap2D data varname)
       else if recEqStr ndim "3D" then .ok (env.mkMap3D data varname)
       else .error .unboundLocal)
    else if diagname = "field" && recEqStr ndim "3D" then
      .ok (env.mkField3D data varname)
    else if diagname = "field" && recEqStr ndim "2D" then
      .ok (env.mkField2D data varname)
    else
      .error .unboundLocal

/-- Observable I/O events of `postreader_averaged`, one constructor per call
site: the cache probe inside the `try` block, the raw read, the reference
read, the `cost` combination, the `averaging` call, the cache write, and the
final re-read. -/
inductive PEvent where
  | cacheProbe (expname : String) (startyear endyear : Int)
      (varlabel diagname metrics : String)
  | rawRead (expname : String) (startyear endyear : Int)
  | refRead (expname : String) (startyear endyear : Int)
      (varlabel diagname metrics : String)
  | costCall (metrics : String)
  | averagingCall (diagname : String)
  | write (path : String)
  | finalRead (expname : String) (startyear endyear : Int)
      (varlabel diagname metrics : String)
  deriving DecidableEq, Repr

/-- Whether an event is the reference read (call site of line 106). -/
def PEvent.isRefRead : PEvent → Bool
  | .refRead _ _ _ _ _ _ => true
  | _ => false

/-- Whether an event is the initial cache probe. -/
def PEvent.isCacheProbe : PEvent → Bool
  | .cacheProbe _ _ _ _ _ _ => true
  | _ => false

/-- Metric combination block of `postreader_averaged` (lines 96-107): when
`metrics != 'base'`, read `meanfield.yaml` (`FileNotFoundError` if the file
is missing; when the `'meanfield'` key is absent the names `exp0`, `y0`,
`y1` are never bound, so their use raises `NameError`), load the reference
product `field_{varlabel}_base_{y0}-{y1}.nc` of the configured experiment —
a failure here propagates, it is outside the `try` block — and combine the
raw field with it through `cost`.  Returns the combined field and the I/O
events of this block. -/
def combineMetrics {α β : Type} (env : PEnv α β) (fs : FS β)
    (varlabel metrics : String) (xdata0 : α) :
    Except PyErr α × List PEvent :=
  if metrics = "base" then (.ok xdata0, [])
  else
    match env.meanfield with
    | none => (.error .fileNotFound, [])
    | some none => (.error .nameError, [])
    | some (some cfg) =>
      match reader_averaged env fs cfg.expname cfg.startyear cfg.endyear
          varlabel "field" "base" with
      | .error e =>
        (.error e,
          [.refRead cfg.expname cfg.startyear cfg.endyear varlabel "field" "base"])
      | .ok mdata =>
        (.ok (env.cost xdata0 mdata metrics),
          [.refRead cfg.expname cfg.startyear cfg.endyear varlabel "field" "base",
            .costCall metrics])

/-- Recompute path of `postreader_averaged` (everything after the `try`
block): read the raw data, optionally combine with the reference field from
`meanfield.yaml`, average, write the cache file, and re-read it.  `tr` is
the event trace accumulated so far. -/
def postreaderRecompute {α β : Type} (env : PEnv α β) (fs : FS β)
    (expname : String) (startyear endyear : Int) (varlabel diagname : String)
    (_replace : Bool) (metrics : String) (tr : List PEvent) :
    Except PyErr α × FS β × List PEvent :=
  match env.reader_nemo expname startyear endyear with
  | .error e => (.error e, fs, tr ++ [.rawRead expname startyear endyear])
  | .ok xdata0 =>
    let tr1 := tr ++ [.rawRead expname startyear endyear]
    match combineMetrics env fs varlabel metrics xdata0 with
    | (.error e, trm) => (.error e, fs, tr1 ++ trm)
    | (.ok xdata, trm) =>
      let tr2 := tr1 ++ trm
      match averaging env expname xdata varlabel diagname with
      | .error e => (.error e, fs, tr2 ++ [.averagingCall diagname])
      | .ok ds =>
        let tr3 := tr2 ++ [.averagingCall diagname]
        -- os.makedirs, optional remove_existing_file, then to_netcdf:
        -- the net effect on the file map is an overwrite
        let path := avgFilename env expname startyear endyear varlabel diagname metrics
        let fs1 := fs.write path (env.encode ds)
        let tr4 := tr3 ++ [.write path]
        -- "Now you can read": final reader_averaged on the fresh file
        match reader_averaged env fs1 expname startyear endyear varlabel diagname metrics with
        | .ok d =>
          (.ok d, fs1,
            tr4 ++ [.finalRead expname startyear endyear varlabel diagname metrics])
        | .error e =>
          (.error e, fs1,
            tr4 ++ [.finalRead expname startyear endyear varlabel diagname metrics])

/-- Embedding of `postreader_averaged`: split the variable label, look the
variable up in the catalogue (`KeyError` if absent), probe the cache when
`replace` is false (a hit returns the decoded file directly), and otherwise
run the recompute path. -/
def postreader_averaged {α β : Type} (env : PEnv α β) (fs : FS β)
    (expname : String) (startyear endyear : Int) (varlabel diagname : String)
    (replace : Bool) (metrics : String) :
    Except PyErr α × FS β × List PEvent :=
  let varname := (splitVarlabel varlabel).1
  match lookupVar varname with
  | none => (.error .keyError, fs, [])
  | some _ =>
    if replace = false then
      match reader_averaged env fs expname startyear endyear varlabel diagname metrics with
      | .ok d =>
        (.ok d, fs, [.cacheProbe expname startyear endyear varlabel diagname metrics])
      | .error _ =>
        -- only FileNotFoundError can arise here; it is caught and we recompute
        postreaderRecompute env fs expname startyear endyear varlabel diagname
          replace metrics
          [.cacheProbe expname startyear endyear varlabel diagname metrics]
    else
      postreaderRecompute env fs expname startyear endyear varlabel diagname
        replace metrics []

/-! Rollback tool (`martini/roll_back_ece4.py`), leginfo update. -/

/-- Date as stored in the `start` field of the leg schedule of
`leginfo.yml`. -/
structure RollDate where
  year : Int
  month : Nat
  day : Nat
  deriving DecidableEq, Repr

/-- Shifting a date by whole years, `info['start'] + relativedelta(years=dy)`:
the year moves, month and day stay (the Feb-29 clamping corner of
`relativedelta` does not arise for leg start dates). -/
def RollDate.addYears (d : RollDate) (dy : Int) : RollDate :=
  { d with year := d.year + dy }

/-- Content of `leginfo['base.context']['experiment']['schedule']['leg']`:
the current leg number and its start date. -/
structure LegSchedule where
  num : Int
  start : RollDate
  deriving DecidableEq, Repr

/-- Embedding of the leginfo update of `martini/roll_back_ece4.py` (lines
91-112): compute `deltayear` and `newdate`; if the requested leg is strictly
smaller than the recorded one, rewrite the file with the new number and
start date; if equal, do nothing; otherwise raise `ValueError`.  The result
carries the schedule stored in `leginfo.yml` afterwards and a flag telling
whether the file was rewritten; an error means the file was left as it was. -/
def rollbackLeginfo (leg : Int) (cur : LegSchedule) :
    Except PyErr (LegSchedule × Bool) :=
  let deltayear := leg - cur.num
  let newdate := cur.start.addYears deltayear
  if leg < cur.num then
    .ok ({ num := leg, start := newdate }, true)
  else if leg = cur.num then
    .ok (cur, false)
  else
    .error .valueError

/-! EOF projector (`osprey/means/eof.py`). -/

/-- One sample of a coefficient time series: time coordinate, value, and a
finiteness flag (`false` models a NaN value, which `polyfit(skipna=True)`
drops; NaN arithmetic outside the fit is not exercised by the claims).
Floating point is idealized over `ℚ`. -/
structure Sample where
  t : ℚ
  v : ℚ
  finite : Bool
  deriving DecidableEq, Repr

/-- Finite samples of a series, as (time, value) pairs: what
`polyfit(..., skipna=True)` actually fits. -/
def finitePts (s : List Sample) : List (ℚ × ℚ) :=
  (s.filter (fun p => p.finite)).map (fun p => (p.t, p.v))

/-- Sum of the time coordinates of a point list. -/
def sumT (pts : List (ℚ × ℚ)) : ℚ := (pts.map Prod.fst).sum

/-- Sum of the values of a point list. -/
def sumV (pts : List (ℚ × ℚ)) : ℚ := (pts.map Prod.snd).sum

/-- Sum of the squared time coordinates. -/
def sumTT (pts : List (ℚ × ℚ)) : ℚ := (pts.map (fun p => p.1 * p.1)).sum

/-- Sum of the products time times value. -/
def sumTV (pts : List (ℚ × ℚ)) : ℚ := (pts.map (fun p => p.1 * p.2)).sum

/-- Determinant of the degree-1 least-squares normal equations. -/
def olsDenom (pts : List (ℚ × ℚ)) : ℚ :=
  pts.length * sumTT pts - sumT pts * sumT pts

/-- Slope of the ordinary-least-squares degree-1 fit. -/
def olsSlope (pts : List (ℚ × ℚ)) : ℚ :=
  (pts.length * sumTV pts - sumT pts * sumV pts) / olsDenom pts

/-- Intercept of the ordinary-least-squares degree-1 fit. -/
def olsIntercept (pts : List (ℚ × ℚ)) : ℚ :=
  (sumTT pts * sumV pts - sumT pts * sumTV pts) / olsDenom pts

/-- models `timeseries.polyfit(dim='time', deg=1, skipna=True)`: the
ordinary-least-squares degree-1 coefficients (slope, intercept) over the
finite samples. -/
def polyfit1 (s : List Sample) : ℚ × ℚ :=
  (olsSlope (finitePts s), olsIntercept (finitePts s))

/-- models `xr.polyval(xf, coefficients)`: direct evaluation of the degree-1
polynomial at the scalar coordinate. -/
def polyval1 (mq : ℚ × ℚ) (x : ℚ) : ℚ := mq.1 * x + mq.2

/-- A labeled field: its dimension names and its payload. -/
structure XField (F : Type) where
  dims : List String
  data : F
  deriving DecidableEq, Repr

/-- Union of dimension lists used for xarray broadcasting: the left operand's
dims followed by the new ones of the right (the relative order before the
final transpose is immaterial for the claims). -/
def dimUnion (l1 l2 : List String) : List String :=
  l1 ++ l2.filter (fun d => !(l1.contains d))

/-- Broadcasting addition `field + theta * basis` on labeled fields. -/
def xadd {F : Type} [Add F] (a b : XField F) : XField F :=
  ⟨dimUnion a.dims b.dims, a.data + b.data⟩

/-- The EOF pattern file `{varname}_pattern.nc` after the preprocessing of
`process_data(ftype='pattern')`: `nt` slices along `time`, the dims of the
dataset, and the spatial payload of each slice. -/
structure PatternData (F : Type) where
  nt : Nat
  dims : List String
  slice : Nat → F

/-- `pattern.isel(time=i)`: drops the `time` dimension, keeps a scalar time
coordinate, and selects slice `i` (an out-of-range index raises
`IndexError`). -/
def PatternData.isel {F : Type} (pd : PatternData F) (i : Nat) :
    Except PyErr (XField F) :=
  if i < pd.nt then .ok ⟨pd.dims.erase "time", pd.slice i⟩ else .error .indexError

/-- One stdout line of the cdo command run by the `frac` mode: whether it
contains `"Mean"`, and the number parsed from its fourth colon-separated
field (`float(line.split(":")[3].strip())`). -/
structure CdoLine where
  hasMean : Bool
  value : ℚ
  deriving DecidableEq, Repr

/-- Catalogue entry of `catalogue.observables('nemo')` (dimensionality and
grid; `osprey.utils.catalogue` does not ship under `src/`, so the catalogue
itself is an environment parameter). -/
structure ObsEntry where
  dim : String
  grid : String
  deriving DecidableEq, Repr

/-- Environment of `project_eofs`: the folder resolver, the observables
catalogue, the time helpers `get_forecast_year` and `get_decimal_year`
(`osprey.utils.time`, not under `src/`), and the input files (pattern,
series, raw field) together with the cdo output of the `frac` mode.  `F` is
the type of spatial payloads. -/
structure EEnv (F : Type) where
  /-- maps an experiment name to `folders(expname)['tmp']`. -/
  tmp : String → String
  /-- `catalogue.observables('nemo')[varname]`; `none` models `KeyError`. -/
  observables : String → Option ObsEntry
  /-- `get_forecast_year(endyear, yearleap)`. -/
  get_forecast_year : Int → Int → Int
  /-- decimal-year coordinate of the forecast date Jan-16-noon of the given
  year: the `use_cftime=False` branch of `_forecast_xarray`. -/
  foreDec : Int → ℚ
  /-- `get_decimal_year` on one raw time coordinate (the conversion
  `timeseries['time'] = new_time` applied samplewise). -/
  dec : ℚ → ℚ
  /-- contents of `{varname}_pattern.nc`; `none` models a missing file. -/
  patternFile : Option (PatternData F)
  /-- contents of `{varname}_series_{i:05d}.nc` after the `series`
  preprocessing; `none` models a missing file. -/
  seriesFile : Nat → Option (List Sample)
  /-- contents of the raw file `{varname}.nc` used by mode `fit`, after the
  `pattern` preprocessing; `none` models a missing file. -/
  fitData : Option (XField F)
  /-- abstract payload of `xr.polyval(xf, polyfit(raw field))` in mode `fit`
  (a per-grid-point linear fit; no claim constrains its numeric content). -/
  fitValue : F
  /-- stdout lines of `cdo info -div {varname}_variance.nc -timsum ...`. -/
  cdoLines : List CdoLine

/-- Python `str(n).zfill(3)`, used for the leg directory name. -/
def zfill3 (n : Int) : String :=
  let s := toString n
  if s.length < 3 then String.mk (List.replicate (3 - s.length) '0') ++ s else s

/-- Decimal-year conversion `timeseries['time'] = get_decimal_year(...)`
applied samplewise to a series (values and finiteness untouched). -/
def decSeries (dec : ℚ → ℚ) (s : List Sample) : List Sample :=
  s.map (fun p => { p with t := dec p.t })

/-- Accumulation loop of modes `full` (over `range(neofs)`) and `first`
(over `[0]` only): per index, read the series file, convert its time axis to
decimal years, fit a degree-1 polynomial (skipping non-finite samples),
evaluate it at the forecast coordinate `xf`, and add `theta * basis` to the
running field; `theta` carries the singleton `time` dimension of `xf`.  The
per-iteration coordinate assignment `field['time'] = yf` changes neither
dims nor data. -/
def eofAccumFull {F : Type} [AddCommMonoid F] [SMul ℚ F] (env : EEnv F)
    (pd : PatternData F) (foredec : ℚ) : List Nat → XField F → Except PyErr (XField F)
  | [], fld => .ok fld
  | i :: rest, fld =>
    match env.seriesFile i with
    | none => .error .fileNotFound
    | some s =>
      let theta := polyval1 (polyfit1 (decSeries env.dec s)) foredec
      match pd.isel i with
      | .error e => .error e
      | .ok basis =>
        eofAccumFull env pd foredec rest
          (xadd fld ⟨dimUnion ["time"] basis.dims, theta • basis.data⟩)

/-- Accumulation loop of mode `reco`: per index, take the last value of the
series (`isel(time=-1)`, an `IndexError` on an empty axis) — a time-scalar,
so the product `theta * basis` carries no `time` dimension — and add it to
the running field. -/
def eofAccumReco {F : Type} [AddCommMonoid F] [SMul ℚ F] (env : EEnv F)
    (pd : PatternData F) : List Nat → XField F → Except PyErr (XField F)
  | [], fld => .ok fld
  | i :: rest, fld =>
    match env.seriesFile i with
    | none => .error .fileNotFound
    | some s =>
      match s.getLast? with
      | none => .error .indexError
      | some last =>
        match pd.isel i with
        | .error e => .error e
        | .ok basis =>
          eofAccumReco env pd rest (xadd fld ⟨basis.dims, last.v • basis.data⟩)

/-- Accumulation loop of mode `frac`: as in `full` but — exactly as in the
source — without the decimal-year conversion of the time axis: the fit runs
on the raw time coordinates. -/
def eofAccumFrac {F : Type} [AddCommMonoid F] [SMul ℚ F] (env : EEnv F)
    (pd : PatternData F) (foredec : ℚ) : List Nat → XField F → Except PyErr (XField F)
  | [], fld => .ok fld
  | i :: rest, fld =>
    match env.seriesFile i with
    | none => .error .fileNotFound
    | some s =>
      let theta := polyval1 (polyfit1 s) foredec
      match pd.isel i with
      | .error e => .error e
      | .ok basis =>
        eofAccumFrac env pd foredec rest
          (xadd fld ⟨dimUnion ["time"] basis.dims, theta • basis.data⟩)

/-- Weights parsed from the cdo output: the value of every line containing
`"Mean"`, in order. -/
def weightsOfLines (lines : List CdoLine) : List ℚ :=
  (lines.filter (fun l => l.hasMean)).map (fun l => l.value)

/-- models `np.cumsum(weights) / np.sum(weights)`: entry `i` is the sum of
the first `i+1` weights divided by the total. -/
def cumNorm (w : List ℚ) : List ℚ :=
  (List.range w.length).map (fun i => ((w.take (i + 1)).sum) / w.sum)

/-- Binary search of `np.searchsorted(a, v)` (side `left`): the loop
`while lo < hi: mid = (lo+hi)//2; if a[mid] < v: lo = mid+1 else hi = mid`. -/
def bisectLeftAux (a : List ℚ) (v : ℚ) (lo hi : Nat) : Nat :=
  if h : lo < hi then
    if a.getD ((lo + hi) / 2) 0 < v then bisectLeftAux a v ((lo + hi) / 2 + 1) hi
    else bisectLeftAux a v lo ((lo + hi) / 2)
  else lo
termination_by hi - lo
decreasing_by
  · omega
  · omega

/-- models `np.searchsorted(a, v)` with the default side `left`. -/
def searchsortedLeft (a : List ℚ) (v : ℚ) : Nat := bisectLeftAux a v 0 a.length

/-- `transpose(*order)` under the default `missing_dims='raise'`: a listed
dimension absent from the field raises `ValueError`; otherwise the dims are
reordered with the listed ones first. -/
def xtranspose {F : Type} (order : List String) (f : XField F) :
    Except PyErr (XField F) :=
  if order.all (fun d => f.dims.contains d) then
    .ok ⟨order ++ f.dims.filter (fun d => !(order.contains d)), f.data⟩
  else .error .valueError

/-- Embedding of `project_eofs` in `osprey/means/eof.py`: leg and year
arithmetic, catalogue lookup, forecast coordinate, pattern read, the
per-mode construction of the projected field (an unrecognized mode leaves
the initial zero field untouched, exactly as the `if/elif` chain does), the
final transpose to the fixed axis order per dimensionality, and the write to
`{varname}_eof.nc` (after `remove_existing_filelist`: an overwrite). -/
def project_eofs {F : Type} [AddCommMonoid F] [SMul ℚ F] (env : EEnv F)
    (expname varname : String) (endleg yearspan yearleap : Int) (mode : String)
    (fs : FS (XField F)) :
    Except PyErr (XField F) × FS (XField F) :=
  let startleg := endleg - yearspan + 1
  let startyear := 1990 + startleg - 2
  let endyear := 1990 + endleg - 2
  let neofs := endyear - startyear + 1
  match env.observables varname with
  | none => (.error .keyError, fs)
  | some info =>
    let foreyear := env.get_forecast_year endyear yearleap
    let foredec := env.foreDec foreyear
    match env.patternFile with
    | none => (.error .fileNotFound, fs)
    | some pd =>
      -- field = pattern.isel(time=0)*0
      match pd.isel 0 with
      | .error e => (.error e, fs)
      | .ok f0 =>
        let field0 : XField F := ⟨f0.dims, 0⟩
        let projected : Except PyErr (XField F) :=
          if mode = "full" then
            eofAccumFull env pd foredec (List.range neofs.toNat) field0
          else if mode = "first" then
            eofAccumFull env pd foredec [0] field0
          else if mode = "reco" then
            -- the final field.drop_vars({'time'}) removes the scalar time
            -- coordinate and leaves the dimensions unchanged
            eofAccumReco env pd (List.range neofs.toNat) field0
          else if mode = "frac" then
            let w := weightsOfLines env.cdoLines
            let feofs := searchsortedLeft (cumNorm w) (9 / 10) + 1
            eofAccumFrac env pd foredec (List.range feofs) field0
          else if mode = "fit" then
            match env.fitData with
            | none => .error .fileNotFound
            | some d => .ok ⟨"time" :: (d.dims.erase "time"), env.fitValue⟩
          else
            .ok field0
        match projected with
        | .error e => (.error e, fs)
        | .ok fld =>
          let fitted : Except PyErr (XField F) :=
            if info.dim = "3D" then xtranspose ["time", "z", "y", "x"] fld
            else if info.dim = "2D" then xtranspose ["time", "y", "x"] fld
            else .ok fld
          match fitted with
          | .error e => (.error e, fs)
          | .ok out =>
            let infile := pathJoin (pathJoin (env.tmp expname) (zfill3 endleg))
              (varname ++ "_eof.nc")
            (.ok out, fs.write infile out)


/-- Demonstration environment used by the closed witnesses: datasets and file
contents are integers, decoding and encoding are the identity. -/
def pEnvDemo : PEnv Int Int where
  perm := fun e => "/perm/" ++ e
  ospreyDir := fun e => "/osprey/" ++ e
  decode := fun b => b
  encode := fun a => a
  reader_nemo := fun _ _ _ => .ok 100
  cost := fun x m _ => x - m
  meanfield := some (some ⟨"lfr0", 1990, 1994⟩)
  mkTimeseries := fun d _ _ _ => d + 1
  mkProfile := fun d _ => d + 2
  mkHovmoller := fun d _ => d + 3
  mkMap2D := fun d _ => d + 4
  mkMap3D := fun d _ => d + 5
  mkField3D := fun d _ => d + 6
  mkField2D := fun d _ => d + 7

/-- Demonstration filesystem: exactly one cached timeseries file. -/
def fsDemo : FS Int :=
  fun p =>
    if p = avgFilename pEnvDemo "X1" 1990 1999 "thetao" "timeseries" "base" then some 7
    else none

/-- Demonstration filesystem with no files at all. -/
def fsEmptyDemo : FS Int := fun _ => none

/-! Restart reader (`reader_restart` in `osprey/actions/post_reader.py`). -/

/-- Environment of `reader_restart`: `get_leg` (from `osprey.utils.time`),
`reader_rebuilt` and `rebuilder` (from `osprey.actions.reader` and
`osprey.actions.rebuilder`), none of which ship under `src/`.  `γ` is the
state of the restart directories which `rebuilder` mutates; `δ` is the
dataset type. -/
structure REnv (γ δ : Type) where
  get_leg : Int → Int
  reader_rebuilt : Int → Int → γ → Except PyErr δ
  rebuilder : String → Int → γ → γ

/-- Observable calls of `reader_restart`. -/
inductive REvent where
  | rebuiltCall (startleg endleg : Int)
  | rebuilderCall (expname : String) (leg : Int)
  deriving DecidableEq, Repr

/-- Python `range(a, b + 1)`: the integers from `a` to `b` inclusive (empty
when `b < a`). -/
def intRange (a b : Int) : List Int :=
  List.map (fun k : Nat => a + (k : Int)) (List.range (b + 1 - a).toNat)

/-- Embedding of `reader_restart`: compute the leg window, try
`reader_rebuilt`; on `FileNotFoundError` run `rebuilder` for every leg of
the window and call `reader_rebuilt` once more, with no further fallback.
Returns the result, the final state, and the trace of calls. -/
def reader_restart {γ δ : Type} (env : REnv γ δ) (expname : String)
    (startyear endyear : Int) (st : γ) :
    Except PyErr δ × γ × List REvent :=
  let startleg := env.get_leg startyear
  let endleg := env.get_leg endyear
  match env.reader_rebuilt startleg endleg st with
  | .ok d => (.ok d, st, [.rebuiltCall startleg endleg])
  | .error e =>
    if e = .fileNotFound then
      let st1 := (intRange startleg endleg).foldl
        (fun s leg => env.rebuilder expname leg s) st
      let tr := [REvent.rebuiltCall startleg endleg]
        ++ (intRange startleg endleg).map (fun leg => REvent.rebuilderCall expname leg)
        ++ [REvent.rebuiltCall startleg endleg]
      match env.reader_rebuilt startleg endleg st1 with
      | .ok d => (.ok d, st1, tr)
      | .error e2 => (.error e2, st1, tr)
    else
      -- only FileNotFoundError is caught; other exceptions propagate
      (.error e, st, [.rebuiltCall startleg endleg])

/-- Demonstration restart environment: legs are `year - 1988` (the relation
used by the leg arithmetic of `project_eofs`); the rebuilt reader succeeds
once at least one rebuild has run; each `rebuilder` call bumps the state. -/
def rEnvDemo : REnv Int Int where
  get_leg := fun y => y - 1988
  reader_rebuilt := fun _ _ s => if 1 ≤ s then .ok 42 else .error .fileNotFound
  rebuilder := fun _ _ s => s + 1

/-- Second demonstration restart environment: the rebuilt reader always
succeeds. -/
def rEnvDemoOk : REnv Int Int where
  get_leg := fun y => y - 1988
  reader_rebuilt := fun _ _ _ => .ok 7
  rebuilder := fun _ _ s => s + 1

/-- The projection the spec describes for mode `full`: one degree-1
ordinary-least-squares fit per basis index over the decimal-year time axis
(skipping non-finite samples), evaluated at the scalar forecast coordinate,
times the spatial basis pattern, summed over all `n` basis indices. -/
def specFullProjection {F : Type} [AddCommMonoid F] [SMul ℚ F] (dec : ℚ → ℚ)
    (series : Nat → List Sample) (basis : Nat → F) (foredec : ℚ) (n : Nat) : F :=
  ∑ i in Finset.range n,
    polyval1 (polyfit1 (decSeries dec (series i))) foredec • basis i

/-- Demonstration EOF environment over scalar payloads: a 3D variable with
two pattern slices of value `1`, a two-sample series fitting `y = t + 1`,
and cdo variance lines with weights `8, 1, 1`. -/
def eofEnvDemo : EEnv ℚ where
  tmp := fun e => "/tmp/" ++ e
  observables := fun v => if v = "thetao" then some ⟨"3D", "T"⟩ else none
  get_forecast_year := fun ey yl => ey + yl
  foreDec := fun y => (y : ℚ)
  dec := id
  patternFile := some ⟨3, ["time", "z", "y", "x"], fun _ => 1⟩
  seriesFile := fun _ => some [⟨0, 1, true⟩, ⟨1, 2, true⟩]
  fitData := some ⟨["time", "z", "y", "x"], 0⟩
  fitValue := 0
  cdoLines := [⟨true, 8⟩, ⟨false, 3⟩, ⟨true, 1⟩, ⟨true, 1⟩]

/-- Cumulative variance share of the leading `k` weights (the spec's
"cumulative variance share"). -/
def cumShare (w : List ℚ) (k : Nat) : ℚ := (w.take k).sum / w.sum

end ECEarth

namespace ECEarth

/-! Theorems for the post-reader claims. -/

/-- C1: with `replace=False` and the cache file
`{diagname}_{varlabel}_{metrics}_{startyear}-{endyear}.nc` present in the
experiment's permanent directory, `postreader_averaged` returns the dataset
loaded from that file, leaves the filesystem unchanged, and its only I/O
event is the cache probe itself: no raw read, no metric combination, no
averaging, and no write happen. -/
theorem postreader_cache_hit {α β : Type} (env : PEnv α β) (fs : FS β)
    (expname : String) (startyear endyear : Int)
    (varlabel diagname metrics : String) (info : VarInfo) (c : β)
    (hvar : lookupVar (splitVarlabel varlabel).1 = some info)
    (hfile : fs (avgFilename env expname startyear endyear varlabel diagname metrics)
      = some c) :
    postreader_averaged env fs expname startyear endyear varlabel diagname false metrics
      = (.ok (env.decode c), fs,
          [.cacheProbe expname startyear endyear varlabel diagname metrics]) := by
  simp [postreader_averaged, reader_averaged, hvar, hfile]

/-- Witness for C1 at a concrete input. -/
theorem postreader_cache_hit_witness :
    lookupVar (splitVarlabel "thetao").1
        = some ⟨"3D", ["T"], "degC", "Temperature", false⟩ ∧
    fsDemo (avgFilename pEnvDemo "X1" 1990 1999 "thetao" "timeseries" "base") = some 7 ∧
    postreader_averaged pEnvDemo fsDemo "X1" 1990 1999 "thetao" "timeseries" false "base"
      = (.ok 7, fsDemo, [.cacheProbe "X1" 1990 1999 "thetao" "timeseries" "base"]) :=
  ⟨by decide, by decide,
    postreader_cache_hit pEnvDemo fsDemo "X1" 1990 1999 "thetao" "timeseries" "base"
      ⟨"3D", ["T"], "degC", "Temperature", false⟩ 7 (by decide) (by decide)⟩

/-- C3: for a variable whose catalogue dimensionality is `2D`, `averaging`
with diagname `profile` or `hovmoller` raises (its `ds` is never assigned, so
the final `return ds` raises `UnboundLocalError`); it never returns a
product.  In the source the guard `ndim == '3D'` compares the whole
catalogue record with a string (see `recEqStr`), so the branch is dead for
every dimensionality; the hypothesis records the claim's restriction to 2D
variables. -/
theorem averaging_2d_profile_hovmoller_error {α β : Type} (env : PEnv α β)
    (expname : String) (data : α) (varlabel : String) (info : VarInfo)
    (hvar : lookupVar (splitVarlabel varlabel).1 = some info)
    (_hdim : info.dim = "2D") (diagname : String)
    (hdiag : diagname = "profile" ∨ diagname = "hovmoller") :
    averaging env expname data varlabel diagname = .error .unboundLocal := by
  rcases hdiag with h | h <;> subst h <;>
    simp [averaging, hvar, recEqStr]

/-- Witness for C3 at a concrete input: `tos` is a 2D catalogue variable. -/
theorem averaging_2d_profile_hovmoller_error_witness :
    lookupVar (splitVarlabel "tos").1
        = some ⟨"2D", ["T"], "degC", "Sea-surface temperature", false⟩ ∧
    averaging pEnvDemo "X1" (0 : Int) "tos" "profile" = .error .unboundLocal :=
  ⟨by decide,
    averaging_2d_profile_hovmoller_error pEnvDemo "X1" 0 "tos"
      ⟨"2D", ["T"], "degC", "Sea-surface temperature", false⟩ (by decide) rfl
      "profile" (Or.inl rfl)⟩

/-- Characterization of a successful `reader_averaged`: the cache file is
present and the result is its decoded content. -/
theorem reader_averaged_ok_iff {α β : Type} (env : PEnv α β) (fs : FS β)
    (expname : String) (startyear endyear : Int) (varlabel diagname metrics : String)
    (d : α) :
    reader_averaged env fs expname startyear endyear varlabel diagname metrics = .ok d ↔
      ∃ c, fs (avgFilename env expname startyear endyear varlabel diagname metrics) = some c
        ∧ d = env.decode c := by
  unfold reader_averaged
  cases h : fs (avgFilename env expname startyear endyear varlabel diagname metrics) <;>
    simp [h, eq_comm]

/-- Shape of a successful recompute: the returned dataset is the decoded
serialization of the averaged dataset, and the filesystem afterwards is the
input filesystem with exactly the cache file overwritten. -/
theorem postreaderRecompute_ok {α β : Type} (env : PEnv α β) (fs : FS β)
    (expname : String) (startyear endyear : Int) (varlabel diagname : String)
    (replace : Bool) (metrics : String) (tr : List PEvent) (d : α)
    (h : (postreaderRecompute env fs expname startyear endyear varlabel diagname
            replace metrics tr).1 = .ok d) :
    ∃ ds, d = env.decode (env.encode ds) ∧
      (postreaderRecompute env fs expname startyear endyear varlabel diagname
          replace metrics tr).2.1
        = fs.write (avgFilename env expname startyear endyear varlabel diagname metrics)
            (env.encode ds) := by
  unfold postreaderRecompute at h ⊢
  split at h
  next e0 heq => simp at h
  next x heq =>
    dsimp only at h ⊢
    split at h
    next e1 trm heq2 => simp at h
    next xdata trm heq2 =>
      try dsimp only at h ⊢
      split at h
      next e1 heq3 => simp at h
      next ds heq3 =>
        try dsimp only at h ⊢
        have hhit : reader_averaged env
            (fs.write (avgFilename env expname startyear endyear varlabel diagname metrics)
              (env.encode ds))
            expname startyear endyear varlabel diagname metrics
            = .ok (env.decode (env.encode ds)) := by
          simp [reader_averaged, FS.write]
        rw [hhit] at h ⊢
        dsimp only at h ⊢
        exact ⟨ds, by simpa [eq_comm] using h, rfl⟩

/-- C2: with `replace=False`, if a call to `postreader_averaged` succeeds then
(a) the cache file afterwards decodes to exactly the returned product, and
(b) a second call with identical arguments returns that same product and
leaves the filesystem untouched: the first call populates the cache and the
second returns precisely the cached file's contents. -/
theorem postreader_idempotent {α β : Type} (env : PEnv α β) (fs : FS β)
    (expname : String) (startyear endyear : Int) (varlabel diagname metrics : String)
    (d1 : α)
    (h1 : (postreader_averaged env fs expname startyear endyear varlabel diagname
            false metrics).1 = .ok d1) :
    (((postreader_averaged env fs expname startyear endyear varlabel diagname
          false metrics).2.1
        (avgFilename env expname startyear endyear varlabel diagname metrics)).map
        env.decode = some d1) ∧
    (postreader_averaged env
        ((postreader_averaged env fs expname startyear endyear varlabel diagname
            false metrics).2.1)
        expname startyear endyear varlabel diagname false metrics).1 = .ok d1 ∧
    (postreader_averaged env
        ((postreader_averaged env fs expname startyear endyear varlabel diagname
            false metrics).2.1)
        expname startyear endyear varlabel diagname false metrics).2.1
      = (postreader_averaged env fs expname startyear endyear varlabel diagname
          false metrics).2.1 := by
  cases hv : lookupVar (splitVarlabel varlabel).1 with
  | none =>
    have hbad : (postreader_averaged env fs expname startyear endyear varlabel diagname
        false metrics).1 = .error .keyError := by
      unfold postreader_averaged; simp [hv]
    rw [hbad] at h1; simp at h1
  | some info =>
    cases hc : reader_averaged env fs expname startyear endyear varlabel diagname metrics with
    | ok d =>
      have hfirst : postreader_averaged env fs expname startyear endyear varlabel diagname
          false metrics
          = (.ok d, fs,
              [.cacheProbe expname startyear endyear varlabel diagname metrics]) := by
        unfold postreader_averaged; simp [hv, hc]
      rw [hfirst] at h1 ⊢
      have hd1 : d = d1 := by simpa using h1
      subst hd1
      obtain ⟨c, hfsc, hdc⟩ := (reader_averaged_ok_iff env fs expname startyear endyear
        varlabel diagname metrics d).mp hc
      exact ⟨by simp [hfsc, hdc.symm], by simp [hfirst], by simp [hfirst]⟩
    | error e0 =>
      have hfirst : postreader_averaged env fs expname startyear endyear varlabel diagname
          false metrics
          = postreaderRecompute env fs expname startyear endyear varlabel diagname
              false metrics
              [.cacheProbe expname startyear endyear varlabel diagname metrics] := by
        unfold postreader_averaged; simp [hv, hc]
      rw [hfirst] at h1 ⊢
      obtain ⟨ds, hdec, hfs1⟩ := postreaderRecompute_ok env fs expname startyear endyear
        varlabel diagname false metrics _ d1 h1
      rw [hfs1]
      have hhit : reader_averaged env
          (fs.write (avgFilename env expname startyear endyear varlabel diagname metrics)
            (env.encode ds))
          expname startyear endyear varlabel diagname metrics
          = .ok (env.decode (env.encode ds)) := by
        simp [reader_averaged, FS.write]
      have hsecond : postreader_averaged env
          (fs.write (avgFilename env expname startyear endyear varlabel diagname metrics)
            (env.encode ds))
          expname startyear endyear varlabel diagname false metrics
          = (.ok (env.decode (env.encode ds)),
              fs.write (avgFilename env expname startyear endyear varlabel diagname metrics)
                (env.encode ds),
              [.cacheProbe expname startyear endyear varlabel diagname metrics]) := by
        unfold postreader_averaged; simp [hv, hhit]
      rw [hsecond]
      exact ⟨by simp [FS.write, hdec], by simp [hdec], rfl⟩

/-- Witness for C2 at a concrete input: a first call on an empty filesystem
computes and caches the timeseries product `101`; the second call returns it
from the cache. -/
theorem postreader_idempotent_witness :
    ((postreader_averaged pEnvDemo fsEmptyDemo "X1" 1990 1999 "thetao" "timeseries"
        false "base").1 = .ok 101) ∧
    (postreader_averaged pEnvDemo
        ((postreader_averaged pEnvDemo fsEmptyDemo "X1" 1990 1999 "thetao" "timeseries"
            false "base").2.1)
        "X1" 1990 1999 "thetao" "timeseries" false "base").1 = .ok 101 :=
  ⟨by rfl,
    (postreader_idempotent pEnvDemo fsEmptyDemo "X1" 1990 1999 "thetao" "timeseries"
      "base" 101 (by rfl)).2.1⟩

/-- Trace shape of the recompute path when a reference field is requested
(`metrics != 'base'`) and the raw read succeeds: right after the raw-read
event comes the single reference read, always named with diagname `field`,
metrics `base` and the experiment and year range of `meanfield.yaml`; no
other reference read ever occurs. -/
theorem postreaderRecompute_trace {α β : Type} (env : PEnv α β) (fs : FS β)
    (expname : String) (startyear endyear : Int) (varlabel diagname : String)
    (replace : Bool) (metrics : String) (tr : List PEvent) (cfg : MFConfig) (x : α)
    (hm : metrics ≠ "base")
    (hcfg : env.meanfield = some (some cfg))
    (hraw : env.reader_nemo expname startyear endyear = .ok x) :
    ∃ rest : List PEvent,
      (postreaderRecompute env fs expname startyear endyear varlabel diagname
          replace metrics tr).2.2
        = tr ++ [.rawRead expname startyear endyear,
            .refRead cfg.expname cfg.startyear cfg.endyear varlabel "field" "base"]
            ++ rest ∧
      ∀ ev ∈ rest, ev.isRefRead = false := by
  unfold postreaderRecompute
  rw [hraw]
  dsimp only
  cases href : reader_averaged env fs cfg.expname cfg.startyear cfg.endyear
      varlabel "field" "base" with
  | error e =>
    have hcomb : combineMetrics env fs varlabel metrics x
        = (.error e,
            [.refRead cfg.expname cfg.startyear cfg.endyear varlabel "field" "base"]) := by
      unfold combineMetrics; simp [hm, hcfg, href]
    rw [hcomb]
    exact ⟨[], by simp, by simp⟩
  | ok mdata =>
    have hcomb : combineMetrics env fs varlabel metrics x
        = (.ok (env.cost x mdata metrics),
            [.refRead cfg.expname cfg.startyear cfg.endyear varlabel "field" "base",
              .costCall metrics]) := by
      unfold combineMetrics; simp [hm, hcfg, href]
    rw [hcomb]
    dsimp only
    cases havg : averaging env expname (env.cost x mdata metrics) varlabel diagname with
    | error e =>
      exact ⟨[.costCall metrics, .averagingCall diagname], by simp, by
        simp [PEvent.isRefRead]⟩
    | ok ds =>
      dsimp only
      cases hfin : reader_averaged env
          (fs.write (avgFilename env expname startyear endyear varlabel diagname metrics)
            (env.encode ds))
          expname startyear endyear varlabel diagname metrics with
      | ok d =>
        refine ⟨[.costCall metrics, .averagingCall diagname,
          .write (avgFilename env expname startyear endyear varlabel diagname metrics),
          .finalRead expname startyear endyear varlabel diagname metrics], by simp, ?_⟩
        simp [PEvent.isRefRead]
      | error e =>
        refine ⟨[.costCall metrics, .averagingCall diagname,
          .write (avgFilename env expname startyear endyear varlabel diagname metrics),
          .finalRead expname startyear endyear varlabel diagname metrics], by simp, ?_⟩
        simp [PEvent.isRefRead]

/-- C4: on the recompute path with `metrics != 'base'`, a well-formed
`meanfield.yaml` and a successful raw read, if the configured reference
product is not on disk then `postreader_averaged` fails with the underlying
`FileNotFoundError` (the reference read is outside the `try` block), writes
nothing, and its non-probe events are exactly the raw read followed by the
single failed reference read: no metric combination, no averaging, and no
recursive computation of the reference happen. -/
theorem postreader_missing_reference {α β : Type} (env : PEnv α β) (fs : FS β)
    (expname : String) (startyear endyear : Int) (varlabel diagname : String)
    (replace : Bool) (metrics : String) (info : VarInfo) (cfg : MFConfig) (x : α)
    (hvar : lookupVar (splitVarlabel varlabel).1 = some info)
    (hm : metrics ≠ "base")
    (hcfg : env.meanfield = some (some cfg))
    (hraw : env.reader_nemo expname startyear endyear = .ok x)
    (hreach : replace = true ∨
      fs (avgFilename env expname startyear endyear varlabel diagname metrics) = none)
    (hmiss : fs (avgFilename env cfg.expname cfg.startyear cfg.endyear varlabel
        "field" "base") = none) :
    (postreader_averaged env fs expname startyear endyear varlabel diagname
        replace metrics).1 = .error .fileNotFound ∧
    (postreader_averaged env fs expname startyear endyear varlabel diagname
        replace metrics).2.1 = fs ∧
    (postreader_averaged env fs expname startyear endyear varlabel diagname
          replace metrics).2.2.filter (fun ev => !ev.isCacheProbe)
      = [.rawRead expname startyear endyear,
          .refRead cfg.expname cfg.startyear cfg.endyear varlabel "field" "base"] := by
  have hcomb : combineMetrics env fs varlabel metrics x
      = (.error .fileNotFound,
          [.refRead cfg.expname cfg.startyear cfg.endyear varlabel "field" "base"]) := by
    unfold combineMetrics; simp [hm, hcfg, reader_averaged, hmiss]
  have hrec : ∀ tr : List PEvent,
      postreaderRecompute env fs expname startyear endyear varlabel diagname
          replace metrics tr
        = (.error .fileNotFound, fs,
            tr ++ [.rawRead expname startyear endyear,
              .refRead cfg.expname cfg.startyear cfg.endyear varlabel "field" "base"]) := by
    intro tr
    unfold postreaderRecompute
    rw [hraw]
    dsimp only
    rw [hcomb]
    simp
  rcases hreach with hrep | hfsmiss
  · subst hrep
    have hfirst : postreader_averaged env fs expname startyear endyear varlabel diagname
        true metrics
        = postreaderRecompute env fs expname startyear endyear varlabel diagname
            true metrics [] := by
      unfold postreader_averaged; simp [hvar]
    rw [hfirst, hrec]
    refine ⟨rfl, rfl, ?_⟩
    simp [PEvent.isCacheProbe]
  · have hcacheMiss : reader_averaged env fs expname startyear endyear varlabel diagname
        metrics = .error .fileNotFound := by
      unfold reader_averaged; rw [hfsmiss]
    have hfirst : postreader_averaged env fs expname startyear endyear varlabel diagname
        replace metrics
        = postreaderRecompute env fs expname startyear endyear varlabel diagname
            replace metrics
            (if replace = false
              then [.cacheProbe expname startyear endyear varlabel diagname metrics]
              else []) := by
      unfold postreader_averaged
      by_cases hrep : replace = false
      · simp [hvar, hrep, hcacheMiss]
      · simp [hvar, hrep]
    rw [hfirst, hrec]
    refine ⟨rfl, rfl, ?_⟩
    by_cases hrep : replace = false <;> simp [hrep, PEvent.isCacheProbe]

/-- C8: whenever the recompute path runs with `metrics != 'base'` (any
requested diagname and metrics), the reference product read for the metric
combination is always the `field`/`base` product of the experiment and year
range configured in `meanfield.yaml`: that reference read occurs, and every
reference-read event in the trace carries exactly that naming. -/
theorem postreader_reference_is_field_base {α β : Type} (env : PEnv α β) (fs : FS β)
    (expname : String) (startyear endyear : Int) (varlabel diagname : String)
    (replace : Bool) (metrics : String) (info : VarInfo) (cfg : MFConfig) (x : α)
    (hvar : lookupVar (splitVarlabel varlabel).1 = some info)
    (hm : metrics ≠ "base")
    (hcfg : env.meanfield = some (some cfg))
    (hraw : env.reader_nemo expname startyear endyear = .ok x)
    (hreach : replace = true ∨
      fs (avgFilename env expname startyear endyear varlabel diagname metrics) = none) :
    (PEvent.refRead cfg.expname cfg.startyear cfg.endyear varlabel "field" "base"
        ∈ (postreader_averaged env fs expname startyear endyear varlabel diagname
            replace metrics).2.2) ∧
    ∀ ev ∈ (postreader_averaged env fs expname startyear endyear varlabel diagname
        replace metrics).2.2,
      ev.isRefRead = true →
        ev = .refRead cfg.expname cfg.startyear cfg.endyear varlabel "field" "base" := by
  have main : ∀ t0 : List PEvent, (∀ ev ∈ t0, ev.isRefRead = false) →
      (PEvent.refRead cfg.expname cfg.startyear cfg.endyear varlabel "field" "base"
          ∈ (postreaderRecompute env fs expname startyear endyear varlabel diagname
              replace metrics t0).2.2) ∧
      ∀ ev ∈ (postreaderRecompute env fs expname startyear endyear varlabel diagname
          replace metrics t0).2.2,
        ev.isRefRead = true →
          ev = .refRead cfg.expname cfg.startyear cfg.endyear varlabel "field" "base" := by
    intro t0 ht0
    obtain ⟨rest, htr, hrest⟩ := postreaderRecompute_trace env fs expname startyear endyear
      varlabel diagname replace metrics t0 cfg x hm hcfg hraw
    rw [htr]
    constructor
    · simp
    · intro ev hev hrr
      rcases List.mem_append.mp hev with hev1 | hev2
      · rcases List.mem_append.mp hev1 with hev0 | hevmid
        · exact absurd hrr (by simp [ht0 ev hev0])
        · simp only [List.mem_cons, List.not_mem_nil, or_false] at hevmid
          rcases hevmid with rfl | rfl
          · exact absurd hrr (by simp [PEvent.isRefRead])
          · rfl
      · exact absurd hrr (by simp [hrest ev hev2])
  rcases hreach with hrep | hfsmiss
  · subst hrep
    have hfirst : postreader_averaged env fs expname startyear endyear varlabel diagname
        true metrics
        = postreaderRecompute env fs expname startyear endyear varlabel diagname
            true metrics [] := by
      unfold postreader_averaged; simp [hvar]
    rw [hfirst]
    exact main [] (by simp)
  · have hcacheMiss : reader_averaged env fs expname startyear endyear varlabel diagname
        metrics = .error .fileNotFound := by
      unfold reader_averaged; rw [hfsmiss]
    have hfirst : postreader_averaged env fs expname startyear endyear varlabel diagname
        replace metrics
        = postreaderRecompute env fs expname startyear endyear varlabel diagname
            replace metrics
            (if replace = false
              then [.cacheProbe expname startyear endyear varlabel diagname metrics]
              else []) := by
      unfold postreader_averaged
      by_cases hrep : replace = false
      · simp [hvar, hrep, hcacheMiss]
      · simp [hvar, hrep]
    rw [hfirst]
    refine main _ ?_
    by_cases hrep : replace = false <;> simp [hrep, PEvent.isRefRead]

/-- Witness for C4 at a concrete input: empty filesystem, `metrics='diff'`;
the reference product configured in `meanfield.yaml` is missing. -/
theorem postreader_missing_reference_witness :
    pEnvDemo.meanfield = some (some ⟨"lfr0", 1990, 1994⟩) ∧
    pEnvDemo.reader_nemo "X1" 1990 1999 = .ok 100 ∧
    fsEmptyDemo (avgFilename pEnvDemo "lfr0" 1990 1994 "thetao" "field" "base") = none ∧
    ((postreader_averaged pEnvDemo fsEmptyDemo "X1" 1990 1999 "thetao" "timeseries"
        false "diff").1 = .error .fileNotFound ∧
      (postreader_averaged pEnvDemo fsEmptyDemo "X1" 1990 1999 "thetao" "timeseries"
          false "diff").2.1 = fsEmptyDemo ∧
      (postreader_averaged pEnvDemo fsEmptyDemo "X1" 1990 1999 "thetao" "timeseries"
            false "diff").2.2.filter (fun ev => !ev.isCacheProbe)
        = [.rawRead "X1" 1990 1999, .refRead "lfr0" 1990 1994 "thetao" "field" "base"]) :=
  ⟨rfl, rfl, rfl,
    postreader_missing_reference pEnvDemo fsEmptyDemo "X1" 1990 1999 "thetao" "timeseries"
      false "diff" ⟨"3D", ["T"], "degC", "Temperature", false⟩ ⟨"lfr0", 1990, 1994⟩ 100
      rfl (by decide) rfl rfl (Or.inr rfl) rfl⟩

/-- Witness for C8 at a concrete input: recompute with `metrics='var'` reads
the `field`/`base` reference of the configured experiment `lfr0`. -/
theorem postreader_reference_is_field_base_witness :
    pEnvDemo.meanfield = some (some ⟨"lfr0", 1990, 1994⟩) ∧
    pEnvDemo.reader_nemo "X1" 1990 1999 = .ok 100 ∧
    ((PEvent.refRead "lfr0" 1990 1994 "thetao" "field" "base"
        ∈ (postreader_averaged pEnvDemo fsEmptyDemo "X1" 1990 1999 "thetao" "map"
            false "var").2.2) ∧
      ∀ ev ∈ (postreader_averaged pEnvDemo fsEmptyDemo "X1" 1990 1999 "thetao" "map"
          false "var").2.2,
        ev.isRefRead = true →
          ev = .refRead "lfr0" 1990 1994 "thetao" "field" "base") :=
  ⟨rfl, rfl,
    postreader_reference_is_field_base pEnvDemo fsEmptyDemo "X1" 1990 1999 "thetao" "map"
      false "var" ⟨"3D", ["T"], "degC", "Temperature", false⟩ ⟨"lfr0", 1990, 1994⟩ 100
      rfl (by decide) rfl rfl (Or.inr rfl)⟩

/-- Membership in the inclusive integer range. -/
theorem mem_intRange_iff (a b x : Int) : x ∈ intRange a b ↔ a ≤ x ∧ x ≤ b := by
  unfold intRange
  simp only [List.mem_map, List.mem_range]
  constructor
  · rintro ⟨k, hk, rfl⟩
    constructor <;> omega
  · rintro ⟨h1, h2⟩
    refine ⟨(x - a).toNat, by omega, by omega⟩

/-- The inclusive integer range has no duplicates. -/
theorem intRange_nodup (a b : Int) : (intRange a b).Nodup := by
  unfold intRange
  refine List.Nodup.map ?_ (List.nodup_range _)
  intro x y hxy
  simp only at hxy
  omega

/-- C9: `reader_restart` returns the `reader_rebuilt` result directly when it
succeeds (no rebuild happens); on `FileNotFoundError` it invokes `rebuilder`
exactly once for every leg from `get_leg(startyear)` to `get_leg(endyear)`
inclusive (and for no other leg), then retries `reader_rebuilt` exactly once
on the rebuilt state, returning whatever that retry yields — there is no
further fallback. -/
theorem reader_restart_spec {γ δ : Type} (env : REnv γ δ) (expname : String)
    (startyear endyear : Int) (st : γ) :
    (∀ d, env.reader_rebuilt (env.get_leg startyear) (env.get_leg endyear) st = .ok d →
      reader_restart env expname startyear endyear st
        = (.ok d, st, [.rebuiltCall (env.get_leg startyear) (env.get_leg endyear)])) ∧
    (env.reader_rebuilt (env.get_leg startyear) (env.get_leg endyear) st
        = .error .fileNotFound →
      (reader_restart env expname startyear endyear st).1
          = env.reader_rebuilt (env.get_leg startyear) (env.get_leg endyear)
              ((intRange (env.get_leg startyear) (env.get_leg endyear)).foldl
                (fun s leg => env.rebuilder expname leg s) st) ∧
      (∀ leg : Int,
        (reader_restart env expname startyear endyear st).2.2.count
            (.rebuilderCall expname leg)
          = if env.get_leg startyear ≤ leg ∧ leg ≤ env.get_leg endyear then 1 else 0) ∧
      (reader_restart env expname startyear endyear st).2.2.count
          (.rebuiltCall (env.get_leg startyear) (env.get_leg endyear)) = 2) := by
  constructor
  · intro d hok
    simp only [reader_restart]
    rw [hok]
  · intro hfnf
    simp only [reader_restart]
    rw [hfnf]
    dsimp only
    rw [if_pos rfl]
    constructor
    · cases hretry : env.reader_rebuilt (env.get_leg startyear) (env.get_leg endyear)
          ((intRange (env.get_leg startyear) (env.get_leg endyear)).foldl
            (fun s leg => env.rebuilder expname leg s) st) <;> rfl
    constructor
    · intro leg
      cases hretry : env.reader_rebuilt (env.get_leg startyear) (env.get_leg endyear)
          ((intRange (env.get_leg startyear) (env.get_leg endyear)).foldl
            (fun s leg => env.rebuilder expname leg s) st) <;>
      · dsimp only
        rw [List.count_append, List.count_append]
        have hinj : Function.Injective (fun l : Int => REvent.rebuilderCall expname l) := by
          intro a b hab
          simpa using hab
        have hmapcount : ((intRange (env.get_leg startyear) (env.get_leg endyear)).map
              (fun l => REvent.rebuilderCall expname l)).count
              (REvent.rebuilderCall expname leg)
            = (intRange (env.get_leg startyear) (env.get_leg endyear)).count leg := by
          exact List.count_map_of_injective _ _ hinj _
        rw [hmapcount]
        by_cases hmem : env.get_leg startyear ≤ leg ∧ leg ≤ env.get_leg endyear
        · have h1 : leg ∈ intRange (env.get_leg startyear) (env.get_leg endyear) :=
            (mem_intRange_iff _ _ _).mpr hmem
          have h2 := List.count_eq_one_of_mem
            (intRange_nodup (env.get_leg startyear) (env.get_leg endyear)) h1
          rw [if_pos hmem]
          simp [h2]
        · have h1 : leg ∉ intRange (env.get_leg startyear) (env.get_leg endyear) := by
            intro hc
            exact hmem ((mem_intRange_iff _ _ _).mp hc)
          have h2 := List.count_eq_zero_of_not_mem h1
          rw [if_neg hmem]
          simp [h2]
    · cases hretry : env.reader_rebuilt (env.get_leg startyear) (env.get_leg endyear)
          ((intRange (env.get_leg startyear) (env.get_leg endyear)).foldl
            (fun s leg => env.rebuilder expname leg s) st) <;>
      · dsimp only
        rw [List.count_append, List.count_append]
        have hzero : ((intRange (env.get_leg startyear) (env.get_leg endyear)).map
              (fun l => REvent.rebuilderCall expname l)).count
              (REvent.rebuiltCall (env.get_leg startyear) (env.get_leg endyear)) = 0 := by
          rw [List.count_eq_zero]
          intro hc
          simp only [List.mem_map] at hc
          obtain ⟨l, _, hl⟩ := hc
          exact REvent.noConfusion hl
        simp [hzero]

/-- Witness for C9: both the direct-success case and the
rebuild-then-retry case, at concrete inputs (years 1990-1991; legs 2-3). -/
theorem reader_restart_spec_witness :
    (rEnvDemoOk.reader_rebuilt 2 3 0 = .ok 7 ∧
      reader_restart rEnvDemoOk "X1" 1990 1991 0 = (.ok 7, 0, [.rebuiltCall 2 3])) ∧
    (rEnvDemo.reader_rebuilt 2 3 0 = .error .fileNotFound ∧
      (reader_restart rEnvDemo "X1" 1990 1991 0).1 = .ok 42 ∧
      (reader_restart rEnvDemo "X1" 1990 1991 0).2.2.count (.rebuilderCall "X1" 2) = 1 ∧
      (reader_restart rEnvDemo "X1" 1990 1991 0).2.2.count (.rebuilderCall "X1" 9) = 0 ∧
      (reader_restart rEnvDemo "X1" 1990 1991 0).2.2.count (.rebuiltCall 2 3) = 2) :=
  ⟨⟨rfl, (reader_restart_spec rEnvDemoOk "X1" 1990 1991 0).1 7 rfl⟩,
    ⟨rfl, by
      have h := (reader_restart_spec rEnvDemo "X1" 1990 1991 0).2 (by rfl)
      refine ⟨?_, ?_, ?_, ?_⟩
      · rw [h.1]; rfl
      · have := h.2.1 2; simpa using this
      · have := h.2.1 9; simpa using this
      · exact h.2.2⟩⟩

/-- C10: the rollback tool rewrites `leginfo.yml` exactly when the requested
leg is strictly below the recorded one (new number and start date shifted by
`leg - num` years); an equal leg leaves the file unchanged; a greater leg
raises `ValueError`, leaving the file unmodified. -/
theorem rollback_leginfo_spec (leg : Int) (cur : LegSchedule) :
    (leg < cur.num →
      rollbackLeginfo leg cur =
        .ok ({ num := leg, start := cur.start.addYears (leg - cur.num) }, true)) ∧
    (leg = cur.num → rollbackLeginfo leg cur = .ok (cur, false)) ∧
    (cur.num < leg → rollbackLeginfo leg cur = .error .valueError) := by
  refine ⟨fun h => ?_, fun h => ?_, fun h => ?_⟩
  · simp [rollbackLeginfo, h]
  · subst h; simp [rollbackLeginfo]
  · have h1 : ¬ leg < cur.num := by omega
    have h2 : leg ≠ cur.num := by omega
    simp [rollbackLeginfo, h1, h2]

/-- Witness for C10: all three cases at concrete legs (current leg 5,
starting 1994-01-01). -/
theorem rollback_leginfo_spec_witness :
    ((3 : Int) < (5 : Int) ∧
      rollbackLeginfo 3 ⟨5, ⟨1994, 1, 1⟩⟩ = .ok (⟨3, ⟨1992, 1, 1⟩⟩, true)) ∧
    rollbackLeginfo 5 ⟨5, ⟨1994, 1, 1⟩⟩ = .ok (⟨5, ⟨1994, 1, 1⟩⟩, false) ∧
    ((5 : Int) < (7 : Int) ∧
      rollbackLeginfo 7 ⟨5, ⟨1994, 1, 1⟩⟩ = .error .valueError) :=
  ⟨⟨by decide, (rollback_leginfo_spec 3 ⟨5, ⟨1994, 1, 1⟩⟩).1 (by decide)⟩,
    (rollback_leginfo_spec 5 ⟨5, ⟨1994, 1, 1⟩⟩).2.1 rfl,
    ⟨by decide, (rollback_leginfo_spec 7 ⟨5, ⟨1994, 1, 1⟩⟩).2.2 (by decide)⟩⟩

end ECEarth

namespace ECEarth

/-! Theorems for the EOF projector claims. -/

/-- Residual sum of a degree-1 candidate over a point list. -/
theorem sum_map_residual (pts : List (ℚ × ℚ)) (m q : ℚ) :
    (pts.map (fun p => p.2 - (m * p.1 + q))).sum
      = sumV pts - m * sumT pts - pts.length * q := by
  induction pts with
  | nil => simp [sumV, sumT]
  | cons p ps ih =>
    simp only [List.map_cons, List.sum_cons, ih, sumV, sumT, List.length_cons]
    push_cast
    ring

/-- Time-weighted residual sum of a degree-1 candidate over a point list. -/
theorem sum_map_t_residual (pts : List (ℚ × ℚ)) (m q : ℚ) :
    (pts.map (fun p => p.1 * (p.2 - (m * p.1 + q)))).sum
      = sumTV pts - m * sumTT pts - q * sumT pts := by
  induction pts with
  | nil => simp [sumTV, sumTT, sumT]
  | cons p ps ih =>
    simp only [List.map_cons, List.sum_cons, ih, sumTV, sumTT, sumT]
    ring

/-- The closed-form degree-1 fit satisfies the ordinary-least-squares normal
equations: the residuals and the time-weighted residuals both sum to zero
(whenever the normal-equation determinant does not vanish). -/
theorem ols_normal_equations (pts : List (ℚ × ℚ)) (hden : olsDenom pts ≠ 0) :
    (pts.map (fun p => p.2 - (olsSlope pts * p.1 + olsIntercept pts))).sum = 0 ∧
    (pts.map (fun p => p.1 * (p.2 - (olsSlope pts * p.1 + olsIntercept pts)))).sum = 0 := by
  have hd : (pts.length : ℚ) * sumTT pts - sumT pts * sumT pts ≠ 0 := by
    simpa [olsDenom] using hden
  constructor
  · rw [sum_map_residual]
    unfold olsSlope olsIntercept olsDenom
    field_simp
    ring
  · rw [sum_map_t_residual]
    unfold olsSlope olsIntercept olsDenom
    field_simp
    ring

/-- Sum of a function over `List.range` equals the `Finset.range` sum. -/
theorem list_range_map_sum {M : Type} [AddCommMonoid M] (f : Nat → M) (n : Nat) :
    ((List.range n).map f).sum = ∑ i in Finset.range n, f i := by
  induction n with
  | zero => simp
  | succ m ih =>
    rw [List.range_succ, List.map_append, List.sum_append, Finset.sum_range_succ, ih]
    simp

/-- Unrolling of the `full`-mode accumulation loop when every series file of
the index list is present and every index is within the pattern: dims fold
by broadcasting and the data accumulates the per-index
`polyval(polyfit(series), xf) * slice` terms. -/
theorem eofAccumFull_ok {F : Type} [AddCommMonoid F] [SMul ℚ F] (env : EEnv F)
    (pd : PatternData F) (foredec : ℚ) (series : Nat → List Sample)
    (hser : ∀ i, env.seriesFile i = some (series i)) (l : List Nat) (fld : XField F)
    (hlt : ∀ i ∈ l, i < pd.nt) :
    eofAccumFull env pd foredec l fld
      = .ok ⟨l.foldl (fun ds _ => dimUnion ds (dimUnion ["time"] (pd.dims.erase "time")))
            fld.dims,
          fld.data + (l.map (fun i =>
            polyval1 (polyfit1 (decSeries env.dec (series i))) foredec • pd.slice i)).sum⟩ := by
  induction l generalizing fld with
  | nil => simp [eofAccumFull]
  | cons i rest ih =>
    have hi : i < pd.nt := hlt i (by simp)
    rw [eofAccumFull, hser i]
    simp only [PatternData.isel, if_pos hi]
    rw [ih _ (fun j hj => hlt j (by simp [hj]))]
    simp only [List.foldl_cons, List.map_cons, List.sum_cons, xadd]
    congr 1
    simp [add_assoc]

/-- Constant-step dims fold over a nonempty range: one application reaches
the fixed point `T`, further applications stay there. -/
theorem range_foldl_dimUnion (E T step : List String)
    (hfix1 : dimUnion E step = T) (hfix2 : dimUnion T step = T) (n : Nat) (hn : 0 < n) :
    (List.range n).foldl (fun ds _ => dimUnion ds step) E = T := by
  induction n with
  | zero => omega
  | succ m ih =>
    rw [List.range_succ, List.foldl_append]
    rcases Nat.eq_zero_or_pos m with rfl | hm
    · simpa using hfix1
    · rw [ih hm]
      simpa using hfix2

/-- C5: mode `full` fits, for every basis index `i` below
`neofs = endyear - startyear + 1`, a degree-1 ordinary-least-squares
polynomial to the (decimal-year, coefficient) series skipping non-finite
samples, evaluates it at the scalar forecast coordinate, and accumulates
`coefficient(forecast) * basis_pattern[i]` into the result field: the
written field equals the spec-side sum `specFullProjection`, and every per-
index fit satisfies the ordinary-least-squares normal equations over its
finite samples. -/
theorem project_eofs_full_spec {F : Type} [AddCommMonoid F] [SMul ℚ F] (env : EEnv F)
    (expname varname : String) (endleg yearspan yearleap : Int)
    (fs : FS (XField F)) (info : ObsEntry) (pd : PatternData F)
    (series : Nat → List Sample)
    (hobs : env.observables varname = some info)
    (hdim : info.dim = "3D")
    (hpat : env.patternFile = some pd)
    (hdims : pd.dims = ["time", "z", "y", "x"])
    (hspan : 0 < yearspan)
    (hnt : yearspan.toNat ≤ pd.nt)
    (hser : ∀ i, env.seriesFile i = some (series i))
    (hden : ∀ i, olsDenom (finitePts (decSeries env.dec (series i))) ≠ 0) :
    ∃ out : XField F,
      project_eofs env expname varname endleg yearspan yearleap "full" fs
        = (.ok out,
            fs.write (pathJoin (pathJoin (env.tmp expname) (zfill3 endleg))
              (varname ++ "_eof.nc")) out) ∧
      out.dims = ["time", "z", "y", "x"] ∧
      out.data = specFullProjection env.dec series pd.slice
        (env.foreDec (env.get_forecast_year (1990 + endleg - 2) yearleap))
        ((1990 + endleg - 2 - (1990 + (endleg - yearspan + 1) - 2) + 1).toNat) ∧
      ∀ i,
        ((finitePts (decSeries env.dec (series i))).map
            (fun p => p.2 - polyval1 (polyfit1 (decSeries env.dec (series i))) p.1)).sum
          = 0 ∧
        ((finitePts (decSeries env.dec (series i))).map
            (fun p => p.1 *
              (p.2 - polyval1 (polyfit1 (decSeries env.dec (series i))) p.1))).sum
          = 0 := by
  have hneofs : (1990 + endleg - 2 - (1990 + (endleg - yearspan + 1) - 2) + 1) = yearspan := by
    ring
  have hnt0 : 0 < pd.nt := lt_of_lt_of_le (by omega) hnt
  have haccum := eofAccumFull_ok env pd
    (env.foreDec (env.get_forecast_year (1990 + endleg - 2) yearleap)) series hser
    (List.range yearspan.toNat) ⟨pd.dims.erase "time", (0 : F)⟩
    (fun i hi => lt_of_lt_of_le (List.mem_range.mp hi) hnt)
  have hfoldT : (List.range yearspan.toNat).foldl
      (fun ds _ => dimUnion ds (dimUnion ["time"] (pd.dims.erase "time")))
      (pd.dims.erase "time") = ["z", "y", "x", "time"] := by
    rw [hdims]
    refine range_foldl_dimUnion _ _ _ (by decide) (by decide) _ (by omega)
  refine ⟨⟨["time", "z", "y", "x"],
    (0 : F) + ((List.range yearspan.toNat).map (fun i =>
      polyval1 (polyfit1 (decSeries env.dec (series i)))
        (env.foreDec (env.get_forecast_year (1990 + endleg - 2) yearleap)) • pd.slice i)).sum⟩,
    ?_, rfl, ?_, ?_⟩
  · unfold project_eofs
    rw [hobs, hpat]
    simp only [PatternData.isel, if_pos hnt0, hneofs, if_true]
    rw [haccum]
    dsimp only
    rw [hfoldT]
    have htrans : xtranspose (F := F) ["time", "z", "y", "x"]
        ⟨["z", "y", "x", "time"],
          (0 : F) + ((List.range yearspan.toNat).map (fun i =>
            polyval1 (polyfit1 (decSeries env.dec (series i)))
              (env.foreDec (env.get_forecast_year (1990 + endleg - 2) yearleap))
              • pd.slice i)).sum⟩
        = .ok ⟨["time", "z", "y", "x"],
            (0 : F) + ((List.range yearspan.toNat).map (fun i =>
              polyval1 (polyfit1 (decSeries env.dec (series i)))
                (env.foreDec (env.get_forecast_year (1990 + endleg - 2) yearleap))
                • pd.slice i)).sum⟩ := by
      unfold xtranspose
      dsimp only
      rw [if_pos (by decide)]
      rfl
    rw [hdim]
    simp only [htrans]
    rfl
  · simp only [hneofs]
    rw [zero_add, list_range_map_sum]
    rfl
  · intro i
    have h := ols_normal_equations (finitePts (decSeries env.dec (series i))) (hden i)
    simpa [polyval1, polyfit1] using h

end ECEarth

namespace ECEarth

/-- Witness for C5 at a concrete input (endleg 3, yearspan 2, so two basis
indices; nondegenerate series). -/
theorem project_eofs_full_spec_witness :
    ((0 : Int) < 2 ∧ (2 : Int).toNat ≤ 3 ∧
      (∀ _i : Nat, olsDenom (finitePts (decSeries eofEnvDemo.dec
        [⟨0, 1, true⟩, ⟨1, 2, true⟩])) ≠ 0)) ∧
    ∃ out : XField ℚ,
      project_eofs eofEnvDemo "FE01" "thetao" 3 2 1 "full" (fun _ => none)
        = (.ok out,
            FS.write (fun _ => none)
              (pathJoin (pathJoin (eofEnvDemo.tmp "FE01") (zfill3 3)) ("thetao" ++ "_eof.nc"))
              out) ∧
      out.dims = ["time", "z", "y", "x"] :=
  ⟨⟨by decide, by decide,
      fun _ => by norm_num [olsDenom, finitePts, decSeries, sumTT, sumT, eofEnvDemo]⟩,
    (project_eofs_full_spec eofEnvDemo "FE01" "thetao" 3 2 1 (fun _ => none)
        ⟨"3D", "T"⟩ ⟨3, ["time", "z", "y", "x"], fun _ => 1⟩
        (fun _ => [⟨0, 1, true⟩, ⟨1, 2, true⟩])
        rfl rfl rfl rfl (by decide) (by decide) (fun _ => rfl)
        (fun _ => by norm_num [olsDenom, finitePts, decSeries, sumTT, sumT, eofEnvDemo])).elim
      (fun out h => ⟨out, h.1, h.2.1⟩)⟩

end ECEarth

namespace ECEarth

/-- Invariant proof of the binary search: on a sorted array it returns the
first index whose entry is at least `v` (or the length when there is none);
stated through the three characterizing properties of the result. -/
theorem bisectLeftAux_spec (a : List ℚ) (v : ℚ)
    (hsort : ∀ i j, i ≤ j → j < a.length → a.getD i 0 ≤ a.getD j 0) :
    ∀ n lo hi, hi - lo ≤ n → lo ≤ hi → hi ≤ a.length →
      (∀ i, i < lo → a.getD i 0 < v) →
      (∀ i, hi ≤ i → i < a.length → v ≤ a.getD i 0) →
      (∀ i, i < bisectLeftAux a v lo hi → a.getD i 0 < v) ∧
      (bisectLeftAux a v lo hi < a.length → v ≤ a.getD (bisectLeftAux a v lo hi) 0) ∧
      lo ≤ bisectLeftAux a v lo hi ∧ bisectLeftAux a v lo hi ≤ hi := by
  intro n
  induction n with
  | zero =>
    intro lo hi h0 h1 h2 h3 h4
    have hnl : ¬ lo < hi := by omega
    unfold bisectLeftAux
    rw [dif_neg hnl]
    exact ⟨fun i hi2 => h3 i hi2, fun hlen => h4 _ (by omega) hlen, le_refl _, by omega⟩
  | succ m ih =>
    intro lo hi h0 h1 h2 h3 h4
    by_cases hlh : lo < hi
    · unfold bisectLeftAux
      rw [dif_pos hlh]
      have hmlt : (lo + hi) / 2 < hi := by omega
      have hmge : lo ≤ (lo + hi) / 2 := by omega
      by_cases hcmp : a.getD ((lo + hi) / 2) 0 < v
      · rw [if_pos hcmp]
        have hrec := ih ((lo + hi) / 2 + 1) hi (by omega) (by omega) h2
          (fun i hi2 => lt_of_le_of_lt
            (hsort i ((lo + hi) / 2) (by omega) (by omega)) hcmp)
          h4
        exact ⟨hrec.1, hrec.2.1, by omega, hrec.2.2.2⟩
      · rw [if_neg hcmp]
        have hge : v ≤ a.getD ((lo + hi) / 2) 0 := le_of_not_lt hcmp
        have hrec := ih lo ((lo + hi) / 2) (by omega) (by omega) (by omega) h3
          (fun i hmi hil => le_trans hge (hsort ((lo + hi) / 2) i hmi hil))
        exact ⟨hrec.1, hrec.2.1, hrec.2.2.1, by omega⟩
    · unfold bisectLeftAux
      rw [dif_neg hlh]
      exact ⟨fun i hi2 => h3 i hi2, fun hlen => h4 _ (by omega) hlen, le_refl _, by omega⟩

/-- Entry `i` of a mapped range, via `getD`. -/
theorem getD_map_range (f : Nat → ℚ) (n i : Nat) (h : i < n) :
    ((List.range n).map f).getD i 0 = f i := by
  rw [List.getD_eq_getElem?_getD, List.getElem?_map, List.getElem?_range h]
  rfl

/-- Appending one more weight can only grow a nonnegative prefix sum. -/
theorem take_sum_succ_ge (w : List ℚ) (hw : ∀ x ∈ w, 0 ≤ x) (j : Nat) :
    (w.take j).sum ≤ (w.take (j + 1)).sum := by
  by_cases hj : j < w.length
  · rw [List.sum_take_succ w j hj]
    have h0 : (0 : ℚ) ≤ w[j] := hw _ (List.getElem_mem hj)
    linarith
  · rw [List.take_of_length_le (by omega), List.take_of_length_le (by omega)]

/-- Prefix sums of nonnegative weights are monotone. -/
theorem take_sum_mono (w : List ℚ) (hw : ∀ x ∈ w, 0 ≤ x) (i j : Nat) (hij : i ≤ j) :
    (w.take i).sum ≤ (w.take j).sum := by
  induction j with
  | zero =>
    have : i = 0 := by omega
    simp [this]
  | succ m ihm =>
    rcases Nat.lt_or_ge i (m + 1) with hlt | hge
    · exact le_trans (ihm (by omega)) (take_sum_succ_ge w hw m)
    · have : i = m + 1 := by omega
      simp [this]

/-- The searchsorted-based cutoff of mode `frac`: for nonnegative weights
with positive total, `feofs = searchsorted(cumulative, 0.9) + 1` is at most
the number of weights, its cumulative share reaches the 90% threshold, and
it is the smallest such count. -/
theorem frac_cutoff_spec (w : List ℚ) (hw : ∀ x ∈ w, 0 ≤ x) (hpos : 0 < w.sum) :
    searchsortedLeft (cumNorm w) (9 / 10) + 1 ≤ w.length ∧
    cumShare w (searchsortedLeft (cumNorm w) (9 / 10) + 1) ≥ 9 / 10 ∧
    ∀ j, j < searchsortedLeft (cumNorm w) (9 / 10) + 1 → cumShare w j < 9 / 10 := by
  have hlen : (cumNorm w).length = w.length := by
    simp [cumNorm]
  have hS : w.sum ≠ 0 := ne_of_gt hpos
  have hn1 : 1 ≤ w.length := by
    rcases w with _ | ⟨x, xs⟩
    · simp at hpos
    · simp
  have hget : ∀ i, i < w.length → (cumNorm w).getD i 0 = (w.take (i + 1)).sum / w.sum := by
    intro i hi
    unfold cumNorm
    exact getD_map_range _ _ _ hi
  have hsort : ∀ i j, i ≤ j → j < (cumNorm w).length →
      (cumNorm w).getD i 0 ≤ (cumNorm w).getD j 0 := by
    intro i j hij hj
    rw [hlen] at hj
    rw [hget i (by omega), hget j hj]
    have hmono := take_sum_mono w hw (i + 1) (j + 1) (by omega)
    exact (div_le_div_iff_of_pos_right hpos).mpr hmono
  have hspec := bisectLeftAux_spec (cumNorm w) (9 / 10) hsort (cumNorm w).length
    0 (cumNorm w).length (by omega) (by omega) (le_refl _)
    (fun i hi => absurd hi (by omega))
    (fun i hge hlt => absurd (lt_of_le_of_lt hge hlt) (lt_irrefl _))
  have hP1 : ∀ i, i < searchsortedLeft (cumNorm w) (9 / 10) →
      (cumNorm w).getD i 0 < 9 / 10 := hspec.1
  have hP2 : searchsortedLeft (cumNorm w) (9 / 10) < (cumNorm w).length →
      9 / 10 ≤ (cumNorm w).getD (searchsortedLeft (cumNorm w) (9 / 10)) 0 := hspec.2.1
  have hlast : (cumNorm w).getD (w.length - 1) 0 = 1 := by
    rw [hget (w.length - 1) (by omega)]
    have heq : w.length - 1 + 1 = w.length := by omega
    rw [heq, List.take_length, div_self hS]
  have hrlt : searchsortedLeft (cumNorm w) (9 / 10) < w.length := by
    by_contra hc
    push_neg at hc
    have h1 := hP1 (w.length - 1) (by omega)
    rw [hlast] at h1
    norm_num at h1
  refine ⟨by omega, ?_, ?_⟩
  · have h2 := hP2 (by rw [hlen]; exact hrlt)
    rw [hget _ hrlt] at h2
    exact h2
  · intro j hj
    rcases Nat.eq_zero_or_pos j with rfl | hj0
    · unfold cumShare
      norm_num
    · have hj1 : j - 1 < searchsortedLeft (cumNorm w) (9 / 10) := by omega
      have h1 := hP1 (j - 1) hj1
      rw [hget (j - 1) (by omega)] at h1
      unfold cumShare
      have heq : j - 1 + 1 = j := by omega
      rw [heq] at h1
      exact h1

end ECEarth

namespace ECEarth

/-- Unrolling of the `frac`-mode accumulation loop (fit on the raw time
axis, no decimal conversion) when every series file of the index list is
present and every index is within the pattern. -/
theorem eofAccumFrac_ok {F : Type} [AddCommMonoid F] [SMul ℚ F] (env : EEnv F)
    (pd : PatternData F) (foredec : ℚ) (series : Nat → List Sample)
    (hser : ∀ i, env.seriesFile i = some (series i)) (l : List Nat) (fld : XField F)
    (hlt : ∀ i ∈ l, i < pd.nt) :
    eofAccumFrac env pd foredec l fld
      = .ok ⟨l.foldl (fun ds _ => dimUnion ds (dimUnion ["time"] (pd.dims.erase "time")))
            fld.dims,
          fld.data + (l.map (fun i =>
            polyval1 (polyfit1 (series i)) foredec • pd.slice i)).sum⟩ := by
  induction l generalizing fld with
  | nil => simp [eofAccumFrac]
  | cons i rest ih =>
    have hi : i < pd.nt := hlt i (by simp)
    rw [eofAccumFrac, hser i]
    simp only [PatternData.isel, if_pos hi]
    rw [ih _ (fun j hj => hlt j (by simp [hj]))]
    simp only [List.foldl_cons, List.map_cons, List.sum_cons, xadd]
    congr 1
    simp [add_assoc]

/-- C6: in mode `frac` the weights are the cdo lines containing `"Mean"`,
cumulatively normalized; the accumulated basis indices are exactly the
leading `k = searchsorted(cumulative, 0.9) + 1`, which is at most the number
of weights, whose cumulative variance share reaches the 90% threshold, and
which is the smallest count doing so; the written field is the sum of the
leading `k` fitted-coefficient times basis-pattern products. -/
theorem project_eofs_frac_spec {F : Type} [AddCommMonoid F] [SMul ℚ F] (env : EEnv F)
    (expname varname : String) (endleg yearspan yearleap : Int)
    (fs : FS (XField F)) (info : ObsEntry) (pd : PatternData F)
    (series : Nat → List Sample)
    (hobs : env.observables varname = some info)
    (hdim : info.dim = "3D")
    (hpat : env.patternFile = some pd)
    (hdims : pd.dims = ["time", "z", "y", "x"])
    (hw : ∀ x ∈ weightsOfLines env.cdoLines, 0 ≤ x)
    (hpos : 0 < (weightsOfLines env.cdoLines).sum)
    (hnt : (weightsOfLines env.cdoLines).length ≤ pd.nt)
    (hser : ∀ i, env.seriesFile i = some (series i)) :
    ∃ out : XField F,
      project_eofs env expname varname endleg yearspan yearleap "frac" fs
        = (.ok out,
            fs.write (pathJoin (pathJoin (env.tmp expname) (zfill3 endleg))
              (varname ++ "_eof.nc")) out) ∧
      out.dims = ["time", "z", "y", "x"] ∧
      out.data = ∑ i in Finset.range
          (searchsortedLeft (cumNorm (weightsOfLines env.cdoLines)) (9 / 10) + 1),
        polyval1 (polyfit1 (series i))
          (env.foreDec (env.get_forecast_year (1990 + endleg - 2) yearleap)) • pd.slice i ∧
      searchsortedLeft (cumNorm (weightsOfLines env.cdoLines)) (9 / 10) + 1
        ≤ (weightsOfLines env.cdoLines).length ∧
      cumShare (weightsOfLines env.cdoLines)
          (searchsortedLeft (cumNorm (weightsOfLines env.cdoLines)) (9 / 10) + 1) ≥ 9 / 10 ∧
      ∀ j, j < searchsortedLeft (cumNorm (weightsOfLines env.cdoLines)) (9 / 10) + 1 →
        cumShare (weightsOfLines env.cdoLines) j < 9 / 10 := by
  obtain ⟨hkle, hkreach, hkmin⟩ := frac_cutoff_spec (weightsOfLines env.cdoLines) hw hpos
  have hn1 : 1 ≤ (weightsOfLines env.cdoLines).length := by
    rcases hlist : weightsOfLines env.cdoLines with _ | ⟨x, xs⟩
    · rw [hlist] at hpos; simp at hpos
    · simp
  have hnt0 : 0 < pd.nt := by omega
  have haccum := eofAccumFrac_ok env pd
    (env.foreDec (env.get_forecast_year (1990 + endleg - 2) yearleap)) series hser
    (List.range (searchsortedLeft (cumNorm (weightsOfLines env.cdoLines)) (9 / 10) + 1))
    ⟨pd.dims.erase "time", (0 : F)⟩
    (fun i hi => by
      have := List.mem_range.mp hi
      omega)
  have hfoldT : (List.range
        (searchsortedLeft (cumNorm (weightsOfLines env.cdoLines)) (9 / 10) + 1)).foldl
      (fun ds _ => dimUnion ds (dimUnion ["time"] (pd.dims.erase "time")))
      (pd.dims.erase "time") = ["z", "y", "x", "time"] := by
    rw [hdims]
    exact range_foldl_dimUnion _ _ _ (by decide) (by decide) _ (by omega)
  refine ⟨⟨["time", "z", "y", "x"],
    (0 : F) + ((List.range
        (searchsortedLeft (cumNorm (weightsOfLines env.cdoLines)) (9 / 10) + 1)).map
      (fun i => polyval1 (polyfit1 (series i))
        (env.foreDec (env.get_forecast_year (1990 + endleg - 2) yearleap))
          • pd.slice i)).sum⟩,
    ?_, rfl, ?_, hkle, hkreach, hkmin⟩
  · unfold project_eofs
    rw [hobs, hpat]
    simp only [PatternData.isel, if_pos hnt0, if_true]
    rw [haccum]
    dsimp only
    rw [hfoldT, hdim]
    have htrans : xtranspose (F := F) ["time", "z", "y", "x"]
        ⟨["z", "y", "x", "time"],
          (0 : F) + ((List.range
              (searchsortedLeft (cumNorm (weightsOfLines env.cdoLines)) (9 / 10) + 1)).map
            (fun i => polyval1 (polyfit1 (series i))
              (env.foreDec (env.get_forecast_year (1990 + endleg - 2) yearleap))
                • pd.slice i)).sum⟩
        = .ok ⟨["time", "z", "y", "x"],
            (0 : F) + ((List.range
                (searchsortedLeft (cumNorm (weightsOfLines env.cdoLines)) (9 / 10) + 1)).map
              (fun i => polyval1 (polyfit1 (series i))
                (env.foreDec (env.get_forecast_year (1990 + endleg - 2) yearleap))
                  • pd.slice i)).sum⟩ := by
      unfold xtranspose
      dsimp only
      rw [if_pos (by decide)]
      rfl
    simp only [htrans]
    rfl
  · rw [zero_add, list_range_map_sum]

/-- Witness for C6 at a concrete input: weights `8, 1, 1` (shares 0.8, 0.9,
1.0). -/
theorem project_eofs_frac_spec_witness :
    ((∀ x ∈ weightsOfLines eofEnvDemo.cdoLines, 0 ≤ x) ∧
      0 < (weightsOfLines eofEnvDemo.cdoLines).sum ∧
      (weightsOfLines eofEnvDemo.cdoLines).length ≤ 3) ∧
    ∃ out : XField ℚ,
      project_eofs eofEnvDemo "FE01" "thetao" 3 2 1 "frac" (fun _ => none)
        = (.ok out,
            FS.write (fun _ => none)
              (pathJoin (pathJoin (eofEnvDemo.tmp "FE01") (zfill3 3)) ("thetao" ++ "_eof.nc"))
              out) ∧
      cumShare (weightsOfLines eofEnvDemo.cdoLines)
          (searchsortedLeft (cumNorm (weightsOfLines eofEnvDemo.cdoLines)) (9 / 10) + 1)
        ≥ 9 / 10 :=
  ⟨⟨by norm_num [weightsOfLines, eofEnvDemo], by norm_num [weightsOfLines, eofEnvDemo],
      by norm_num [weightsOfLines, eofEnvDemo]⟩,
    (project_eofs_frac_spec eofEnvDemo "FE01" "thetao" 3 2 1 (fun _ => none)
        ⟨"3D", "T"⟩ ⟨3, ["time", "z", "y", "x"], fun _ => 1⟩
        (fun _ => [⟨0, 1, true⟩, ⟨1, 2, true⟩])
        rfl rfl rfl rfl
        (by norm_num [weightsOfLines, eofEnvDemo])
        (by norm_num [weightsOfLines, eofEnvDemo])
        (by norm_num [weightsOfLines, eofEnvDemo]) (fun _ => rfl)).elim
      (fun out h => ⟨out, h.1, h.2.2.2.2.1⟩)⟩

/-- C7 (code defect, mode `reco`): after the reco loop the field carries no
`time` dimension — `pattern.isel(time=i)` and `isel(time=-1)` drop it and
`theta` is a time-scalar — so the final
`transpose("time", "z", "y", "x")` raises `ValueError` (missing dimension)
and nothing is written: the transpose-then-write contract of the claim
fails for `reco`, while the embedding shows the write does happen for the
other modes (see the `full` and `frac` theorems). -/
theorem project_eofs_reco_crash :
    project_eofs eofEnvDemo "FE01" "thetao" 3 2 1 "reco" (fun _ => none)
      = (.error .valueError, fun _ => none) := rfl

end ECEarth
